import Mathlib

/-!
Shallow embedding of the forward-APY calculator (`computeVaultV3ForwardAPY`)
and the management-fee event aggregation engine
(`filterUpdateManagementFee` / `HandleUpdateManagementFee`) of ydaemon.

Modelling conventions:
  * 20-byte addresses are `Nat` identifiers (the zero address is `0`);
  * `bigNumber.Int` values are `Int`, nullable pointers are `Option Int`;
  * `bigNumber.Float` arithmetic is exact rational arithmetic over `ℚ`
    (the source uses arbitrary-precision floats; the constants `0.9`,
    `1`, `10_000` are modelled exactly);
  * fallible RPC / contract calls return `Option`, `none` being the
    error case;
  * Go maps that are only iterated over are modelled as lists, the list
    order standing for the (unspecified) map iteration order.
-/

namespace YDaemon

/-- Vault kind: `models.VaultKindSingle` / `models.VaultKindMultiple`
(other kinds collapsed into `legacy`). -/
inductive VaultKind where
  | single : VaultKind
  | multiple : VaultKind
  | legacy : VaultKind
deriving DecidableEq, Repr

/-- The part of `models.TVault.Metadata` used here: the flag selecting the
legacy (debt-ratio) APR as the primary APR. -/
structure TVaultMetadata where
  ShouldUseV2APR : Bool
deriving DecidableEq, Repr

/-- The fields of `models.TVault` read by `computeVaultV3ForwardAPY` and
`HandleUpdateManagementFee`. -/
structure TVault where
  ChainID : Nat
  Address : Nat
  Kind : VaultKind
  LastTotalAssets : Option Int
  Activation : Nat
  Metadata : TVaultMetadata
deriving DecidableEq, Repr

/-- The fields of `models.TStrategy` read by `computeVaultV3ForwardAPY`. -/
structure TStrategy where
  Address : Nat
  LastDebtRatio : Option Int
  LastPerformanceFee : Int
deriving DecidableEq, Repr

/-- The two read-only calls of the `YVaultsV3APROracle` contract client.
`getStrategyApr` takes the address and the strategy index (always 0 at the
call sites); both return a fixed-point integer at 18-decimal scale, or
`none` on RPC error. -/
structure Oracle where
  getStrategyApr : Nat → Int → Option Int
  getCurrentApr : Nat → Option Int

/-- The part of the chain configuration (`env.TChain`) used here: the APR
oracle contract address (`APROracleContract.Address`). -/
structure TChain where
  APROracleContract : Nat
deriving DecidableEq, Repr

/-- External collaborators of the calculator: chain-configuration lookup
(`env.GetChain`) and oracle client construction
(`contracts.NewYVaultsV3APROracleCaller`, given contract address and
chain ID, `none` when construction fails). -/
structure Env where
  getChain : Nat → Option TChain
  newYVaultsV3APROracleCaller : Nat → Nat → Option Oracle

/-- `helpers.ToNormalizedAmount`: divide a fixed-point integer by
`10^decimals`. -/
def ToNormalizedAmount (value : Int) (decimals : Nat) : ℚ :=
  (value : ℚ) / (10 : ℚ) ^ decimals

/-- `TCompositeData` of the forward-APY result. -/
structure TCompositeData where
  V3OracleCurrentAPR : ℚ
  V3OracleStratRatioAPR : ℚ
deriving DecidableEq, Repr

/-- `TForwardAPY` (the Go field `Type` is rendered `type`). -/
structure TForwardAPY where
  type : String
  NetAPY : ℚ
  Composite : TCompositeData
deriving DecidableEq, Repr

/-- The Go zero value `TForwardAPY{}` (nil big numbers modelled as 0). -/
def emptyTForwardAPY : TForwardAPY :=
  { type := "", NetAPY := 0,
    Composite := { V3OracleCurrentAPR := 0, V3OracleStratRatioAPR := 0 } }

/-- Modelled from the spec: `convertFloatAPRToAPY` is called by
`computeVaultV3ForwardAPY` but its own body is not among the available
sources; the spec defines the conversion as
`APY = (1 + APR/periods)^periods − 1` with 52 periods per year.
(The source narrows to 64-bit floats for this one step; the model keeps
exact rationals.) -/
def convertFloatAPRToAPY (apr : ℚ) (periods : Nat) : ℚ :=
  (1 + apr / (periods : ℚ)) ^ periods - 1

/-- Lines 45-58 of `computeVaultV3ForwardAPY`: resolve the oracle APR with
the two-step fallback. `GetStrategyApr(vault.Address, 0)` first; if it
errs (`hasError`) or the normalized result is zero, try
`GetCurrentApr(vault.Address)`, keeping the previous value when the
fallback errs too. -/
def computeOracleAPR (oracle : Oracle) (vaultAddress : Nat) : ℚ :=
  let oracleAPR : ℚ :=
    match oracle.getStrategyApr vaultAddress 0 with
    | some expected => ToNormalizedAmount expected 18
    | none => 0
  let hasError : Bool := (oracle.getStrategyApr vaultAddress 0).isNone
  if hasError = true ∨ oracleAPR = 0 then
    match oracle.getCurrentApr vaultAddress with
    | some expected => ToNormalizedAmount expected 18
    | none => oracleAPR
  else
    oracleAPR

/-- Lines 72-95 of `computeVaultV3ForwardAPY` (empty-vault edge case):
walk the strategy map, skip strategies whose `GetStrategyApr` call errs,
and at the first success set
`debtRatioAPR = (0 + humanizedAPR * (1 - fee/10000)) * 0.9` and break. -/
def emptyVaultDebtRatioAPR (oracle : Oracle) : List TStrategy → ℚ
  | [] => 0
  | strategy :: rest =>
    match oracle.getStrategyApr strategy.Address 0 with
    | none => emptyVaultDebtRatioAPR oracle rest
    | some expected =>
      let humanizedAPR := ToNormalizedAmount expected 18
      let performanceFee := 1 - (strategy.LastPerformanceFee : ℚ) / 10000
      let scaledStrategyAPR := humanizedAPR * performanceFee
      (0 + scaledStrategyAPR) * (9 / 10)

/-- Loop body of the normal multi-strategy case (lines 98-122): skip a
null or zero debt ratio and a failing oracle call, otherwise add
`humanizedAPR * (debtRatio/10^4) * (1 - fee/10000)` to the accumulator. -/
def multiStrategyStep (oracle : Oracle) (debtRatioAPR : ℚ) (strategy : TStrategy) : ℚ :=
  match strategy.LastDebtRatio with
  | none => debtRatioAPR
  | some dr =>
    if dr = 0 then debtRatioAPR
    else
      match oracle.getStrategyApr strategy.Address 0 with
      | none => debtRatioAPR
      | some expected =>
        let humanizedAPR := ToNormalizedAmount expected 18
        let debtRatio := ToNormalizedAmount dr 4
        let scaledStrategyAPR := humanizedAPR * debtRatio
        let performanceFee := 1 - (strategy.LastPerformanceFee : ℚ) / 10000
        debtRatioAPR + scaledStrategyAPR * performanceFee

/-- Lines 96-127 of `computeVaultV3ForwardAPY` (normal multi-strategy
case): fold the loop body over the strategies, then multiply the total
once by 0.9. -/
def multiStrategyDebtRatioAPR (oracle : Oracle) (strategies : List TStrategy) : ℚ :=
  (strategies.foldl (multiStrategyStep oracle) 0) * (9 / 10)

/-- Lines 63-128 of `computeVaultV3ForwardAPY`: the debt-ratio-weighted
APR, computed only for `Multiple`-kind vaults, with the empty-vault
branch taken when `LastTotalAssets` is nil or zero. -/
def computeDebtRatioAPR (oracle : Oracle) (vault : TVault)
    (allStrategiesForVault : List TStrategy) : ℚ :=
  if vault.Kind = VaultKind.multiple then
    match vault.LastTotalAssets with
    | none => emptyVaultDebtRatioAPR oracle allStrategiesForVault
    | some totalAssets =>
      if totalAssets = 0 then emptyVaultDebtRatioAPR oracle allStrategiesForVault
      else multiStrategyDebtRatioAPR oracle allStrategiesForVault
  else 0

/-- `computeVaultV3ForwardAPY`: resolve chain configuration and oracle
client (returning the zero value on any failure), compute the oracle APR
and the debt-ratio APR, pick the primary per `Metadata.ShouldUseV2APR`,
and convert all three APRs to APYs at 52 periods. -/
def computeVaultV3ForwardAPY (env : Env) (vault : TVault)
    (allStrategiesForVault : List TStrategy) : TForwardAPY :=
  match env.getChain vault.ChainID with
  | none => emptyTForwardAPY
  | some chain =>
    if chain.APROracleContract = 0 then emptyTForwardAPY
    else
      match env.newYVaultsV3APROracleCaller chain.APROracleContract vault.ChainID with
      | none => emptyTForwardAPY
      | some oracle =>
        let oracleAPR := computeOracleAPR oracle vault.Address
        let debtRatioAPR := computeDebtRatioAPR oracle vault allStrategiesForVault
        let primaryAPR := if vault.Metadata.ShouldUseV2APR then debtRatioAPR else oracleAPR
        { type := "v3:onchainOracle"
          NetAPY := convertFloatAPRToAPY primaryAPR 52
          Composite :=
            { V3OracleCurrentAPR := convertFloatAPRToAPY oracleAPR 52
              V3OracleStratRatioAPR := convertFloatAPRToAPY debtRatioAPR 52 } }

/-!
Embedding of `internal/events/filterUpdateManagementFee.go`.

The `sync.Map` keyed by the string `vaultAddress.Hex() + "-" + blockNumber`
is modelled as an association list keyed by the pair
`(vaultAddress, blockNumber)` (the hex/decimal round trip of the key
through `strings.Split` / `HexToAddress` / `ParseUint` is lossless, the
address hex and the decimal block number containing no dash).
The concurrent fan-out is modelled by executing the per-vault tasks in an
arbitrary serial order: each task only loads and stores keys carrying its
own vault address, so task effects on distinct addresses commute.
-/

/-- One decoded `UpdateManagementFee` log entry (`log.Event` with its
`Raw` fields and the decoded fee). -/
structure RawLog where
  BlockNumber : Nat
  TxHash : Nat
  TxIndex : Nat
  LogIndex : Nat
  ManagementFee : Int
deriving DecidableEq, Repr

/-- `utils.TEventBlock`. -/
structure TEventBlock where
  EventType : String
  TxHash : Nat
  BlockNumber : Nat
  TxIndex : Nat
  LogIndex : Nat
  Value : Int
deriving DecidableEq, Repr

/-- `bind.FilterOpts`: block range of a log query (`End = none` meaning
"up to latest"). -/
structure FilterOpts where
  Start : Nat
  End : Option Nat
deriving DecidableEq, Repr

/-- The chain data source behind
`contracts.NewYvault043(...).FilterUpdateManagementFee(opts)`: per vault
address and block range it yields the matching log stream, `none` when
the filtered query itself errs, and `none` entries inside the stream for
entries on which `log.Error()` is non-nil (skipped by the loop). -/
structure LogSource where
  fetch : Nat → FilterOpts → Option (List (Option RawLog))

/-- Event key of the flat concurrent map: `(vaultAddress, blockNumber)`,
standing for the string `vaultAddress.Hex() + "-" + blockNumber`. -/
abbrev EventKey := Nat × Nat

/-- The flat `sync.Map` as an association list `EventKey → [TEventBlock]`. -/
abbrev SyncMap := List (EventKey × List TEventBlock)

/-- `sync.Map.Load`. -/
def syncLoad (m : SyncMap) (k : EventKey) : Option (List TEventBlock) :=
  (m.find? (fun p => p.1 = k)).map Prod.snd

/-- `sync.Map.Store`: replace the entry at the key, or add it. -/
def syncStore : SyncMap → EventKey → List TEventBlock → SyncMap
  | [], k, v => [(k, v)]
  | p :: rest, k, v =>
    if p.1 = k then (k, v) :: rest else p :: syncStore rest k v

/-- Lookup defaulting to the empty record list (a missing key and an
absent vault both read as "no records"). -/
def lookupD (m : SyncMap) (k : EventKey) : List TEventBlock :=
  (syncLoad m k).getD []

/-- Lines 48-63 of `filterUpdateManagementFee`: build the record for one
log entry. -/
def mkEventBlock (e : RawLog) : TEventBlock :=
  { EventType := "updateManagementFee"
    TxHash := e.TxHash
    BlockNumber := e.BlockNumber
    TxIndex := e.TxIndex
    LogIndex := e.LogIndex
    Value := e.ManagementFee }

/-- The load-check-append-store done for one log entry: append the record
to the list at its key, creating a singleton list when the key is new. -/
def insertEvent (m : SyncMap) (op : EventKey × TEventBlock) : SyncMap :=
  match syncLoad m op.1 with
  | some currentBlockData => syncStore m op.1 (currentBlockData ++ [op.2])
  | none => syncStore m op.1 [op.2]

/-- `filterUpdateManagementFee` as the sequence of keyed insertions it
performs: on query error it contributes nothing; erroneous stream entries
are skipped; each surviving entry is keyed by
`(vaultAddress, log.Event.Raw.BlockNumber)`. -/
def filterUpdateManagementFee (src : LogSource) (vaultAddress : Nat)
    (opts : FilterOpts) : List (EventKey × TEventBlock) :=
  match src.fetch vaultAddress opts with
  | none => []
  | some logStream =>
    logStream.filterMap (fun entry =>
      entry.map (fun e => ((vaultAddress, e.BlockNumber), mkEventBlock e)))

/-- Block range used for one vault's query (lines 97-100): the vault's
own activation block when the global start is 0. -/
def vaultOpts (start : Nat) (endBlock : Option Nat) (v : TVault) : FilterOpts :=
  if start = 0 then { Start := v.Activation, End := endBlock }
  else { Start := start, End := endBlock }

/-- One vault's task applied to the shared map: run all of that vault's
insertions. -/
def runVaultTask (src : LogSource) (start : Nat) (endBlock : Option Nat)
    (m : SyncMap) (v : TVault) : SyncMap :=
  (filterUpdateManagementFee src v.Address (vaultOpts start endBlock v)).foldl insertEvent m

/-- The reshape pass of `HandleUpdateManagementFee` (lines 116-127):
iterate the flat map's entries and set `result[vaultAddress][blockNumber]`
to the stored record list; reading a never-set cell gives the empty
list (a Go nil slice). -/
def reshapeFeeMap (m : SyncMap) : Nat → Nat → List TEventBlock :=
  m.foldl (fun acc p => fun vaultAddress blockNumber =>
    if (vaultAddress, blockNumber) = p.1 then p.2
    else acc vaultAddress blockNumber) (fun _ _ => [])

/-- `HandleUpdateManagementFee`: fan out one task per vault (here: run the
tasks in the order of the given list, which stands for an arbitrary
scheduling), wait for all, then reshape the flat map into
`vaultAddress → blockNumber → [records]`. -/
def HandleUpdateManagementFee (src : LogSource) (vaults : List TVault)
    (start : Nat) (endBlock : Option Nat) : Nat → Nat → List TEventBlock :=
  reshapeFeeMap (vaults.foldl (runVaultTask src start endBlock) [])

/-- Records stored at one key by one task's insertion sequence, in task
order. -/
def taskRecordsAt (ops : List (EventKey × TEventBlock)) (k : EventKey) :
    List TEventBlock :=
  ops.filterMap (fun op => if op.1 = k then some op.2 else none)

/-- One vault's contribution at one key. -/
def vaultContribAt (src : LogSource) (start : Nat) (endBlock : Option Nat)
    (k : EventKey) (v : TVault) : List TEventBlock :=
  taskRecordsAt (filterUpdateManagementFee src v.Address (vaultOpts start endBlock v)) k

/-- The association list has pairwise distinct keys. -/
def goodKeys (m : SyncMap) : Prop := (m.map Prod.fst).Nodup

theorem syncLoad_nil (k : EventKey) : syncLoad [] k = none := rfl

theorem syncLoad_cons (p : EventKey × List TEventBlock) (rest : SyncMap) (k : EventKey) :
    syncLoad (p :: rest) k = if p.1 = k then some p.2 else syncLoad rest k := by
  by_cases h : p.1 = k <;> simp [syncLoad, List.find?_cons, h]

theorem syncLoad_eq_none_of_not_mem (m : SyncMap) (k : EventKey)
    (h : k ∉ m.map Prod.fst) : syncLoad m k = none := by
  induction m with
  | nil => rfl
  | cons p rest ih =>
    rw [syncLoad_cons]
    simp only [List.map_cons, List.mem_cons, not_or] at h
    rw [if_neg (fun hc => h.1 hc.symm), ih h.2]

theorem syncLoad_syncStore (m : SyncMap) (k k' : EventKey) (v : List TEventBlock) :
    syncLoad (syncStore m k v) k' = if k' = k then some v else syncLoad m k' := by
  induction m with
  | nil =>
    show syncLoad [(k, v)] k' = _
    rw [syncLoad_cons, syncLoad_nil]
    by_cases h : k' = k
    · rw [if_pos h.symm, if_pos h]
    · rw [if_neg (fun hc => h hc.symm), if_neg h]
  | cons p rest ih =>
    show syncLoad (if p.1 = k then (k, v) :: rest else p :: syncStore rest k v) k' = _
    by_cases hpk : p.1 = k
    · rw [if_pos hpk, syncLoad_cons]
      by_cases h : k' = k
      · rw [if_pos h.symm, if_pos h]
      · rw [if_neg (fun hc => h hc.symm), if_neg h, syncLoad_cons, if_neg]
        rw [hpk]; exact fun hc => h hc.symm
    · rw [if_neg hpk, syncLoad_cons, syncLoad_cons, ih]
      by_cases hp : p.1 = k'
      · rw [if_pos hp, if_pos hp, if_neg (fun hc => hpk (hp.trans hc))]
      · rw [if_neg hp, if_neg hp]

theorem mem_keys_syncStore (m : SyncMap) (k : EventKey) (v : List TEventBlock)
    (x : EventKey) :
    x ∈ (syncStore m k v).map Prod.fst ↔ x = k ∨ x ∈ m.map Prod.fst := by
  induction m with
  | nil => simp [syncStore]
  | cons p rest ih =>
    show x ∈ ((if p.1 = k then (k, v) :: rest else p :: syncStore rest k v).map Prod.fst) ↔ _
    by_cases hpk : p.1 = k
    · rw [if_pos hpk]; simp [hpk]
    · rw [if_neg hpk]; simp [ih]; tauto

theorem goodKeys_syncStore (m : SyncMap) (k : EventKey) (v : List TEventBlock)
    (h : goodKeys m) : goodKeys (syncStore m k v) := by
  induction m with
  | nil => simp [goodKeys, syncStore]
  | cons p rest ih =>
    unfold goodKeys at h
    simp only [List.map_cons, List.nodup_cons] at h
    show goodKeys ((if p.1 = k then (k, v) :: rest else p :: syncStore rest k v))
    by_cases hpk : p.1 = k
    · rw [if_pos hpk]
      unfold goodKeys
      simp only [List.map_cons, List.nodup_cons]
      exact ⟨hpk ▸ h.1, h.2⟩
    · rw [if_neg hpk]
      unfold goodKeys
      simp only [List.map_cons, List.nodup_cons]
      refine ⟨fun hc => ?_, ih h.2⟩
      rcases (mem_keys_syncStore rest k v p.1).mp hc with h1 | h1
      · exact hpk h1
      · exact h.1 h1

theorem lookupD_insertEvent (m : SyncMap) (op : EventKey × TEventBlock) (k : EventKey) :
    lookupD (insertEvent m op) k
    = if op.1 = k then lookupD m k ++ [op.2] else lookupD m k := by
  unfold insertEvent lookupD
  cases h : syncLoad m op.1 with
  | some cur =>
    rw [syncLoad_syncStore]
    by_cases hk : op.1 = k
    · rw [if_pos hk, if_pos hk.symm, ← hk, h]; rfl
    · rw [if_neg hk, if_neg (fun hc => hk hc.symm)]
  | none =>
    rw [syncLoad_syncStore]
    by_cases hk : op.1 = k
    · rw [if_pos hk, if_pos hk.symm, ← hk, h]; rfl
    · rw [if_neg hk, if_neg (fun hc => hk hc.symm)]

theorem goodKeys_insertEvent (m : SyncMap) (op : EventKey × TEventBlock)
    (h : goodKeys m) : goodKeys (insertEvent m op) := by
  unfold insertEvent
  cases syncLoad m op.1 <;> exact goodKeys_syncStore _ _ _ h

theorem lookupD_foldl_insertEvent (ops : List (EventKey × TEventBlock))
    (m : SyncMap) (k : EventKey) :
    lookupD (ops.foldl insertEvent m) k = lookupD m k ++ taskRecordsAt ops k := by
  induction ops generalizing m with
  | nil => simp [taskRecordsAt]
  | cons op rest ih =>
    rw [List.foldl_cons, ih, lookupD_insertEvent]
    unfold taskRecordsAt
    by_cases h : op.1 = k
    · rw [if_pos h, List.filterMap_cons, if_pos h, List.append_assoc]; rfl
    · rw [if_neg h, List.filterMap_cons, if_neg h]

theorem goodKeys_foldl_insertEvent (ops : List (EventKey × TEventBlock))
    (m : SyncMap) (h : goodKeys m) : goodKeys (ops.foldl insertEvent m) := by
  induction ops generalizing m with
  | nil => exact h
  | cons op rest ih => exact ih _ (goodKeys_insertEvent _ _ h)

theorem reshapeFeeMap_eq_lookupD (m : SyncMap) (h : goodKeys m) (a b : Nat) :
    reshapeFeeMap m a b = lookupD m (a, b) := by
  suffices H : ∀ init : Nat → Nat → List TEventBlock,
      (m.foldl (fun acc p => fun vaultAddress blockNumber =>
        if (vaultAddress, blockNumber) = p.1 then p.2
        else acc vaultAddress blockNumber) init) a b
      = match syncLoad m (a, b) with
        | some v => v
        | none => init a b by
    have h0 := H (fun _ _ => [])
    unfold reshapeFeeMap lookupD
    cases hq : syncLoad m (a, b) <;> rw [hq] at h0 <;> simpa using h0
  induction m with
  | nil => intro init; rfl
  | cons p rest ih =>
    intro init
    unfold goodKeys at h
    simp only [List.map_cons, List.nodup_cons] at h
    rw [List.foldl_cons, ih h.2, syncLoad_cons]
    by_cases hpk : p.1 = (a, b)
    · rw [if_pos hpk, syncLoad_eq_none_of_not_mem rest (a, b) (hpk ▸ h.1),
        if_pos hpk.symm]
    · rw [if_neg hpk]
      cases syncLoad rest (a, b) with
      | some v => rfl
      | none => exact if_neg (fun hc => hpk hc.symm)

theorem filterUpdateManagementFee_key_shape (src : LogSource) (addr : Nat)
    (opts : FilterOpts) (op : EventKey × TEventBlock)
    (h : op ∈ filterUpdateManagementFee src addr opts) :
    op.1.1 = addr ∧ op.2.BlockNumber = op.1.2 := by
  unfold filterUpdateManagementFee at h
  cases hf : src.fetch addr opts with
  | none => rw [hf] at h; cases h
  | some logStream =>
    rw [hf] at h
    rcases List.mem_filterMap.mp h with ⟨entry, _, he⟩
    cases entry with
    | none => cases he
    | some e =>
      simp only [Option.map_some'] at he
      injection he with he
      rw [← he]
      exact ⟨rfl, rfl⟩

theorem taskRecordsAt_addr_ne (src : LogSource) (addr : Nat) (opts : FilterOpts)
    (a b : Nat) (h : addr ≠ a) :
    taskRecordsAt (filterUpdateManagementFee src addr opts) (a, b) = [] := by
  unfold taskRecordsAt
  rw [List.filterMap_eq_nil_iff]
  intro op hop
  have hk := (filterUpdateManagementFee_key_shape src addr opts op hop).1
  rw [if_neg]
  intro hc
  exact h (by rw [← hk, hc])

theorem lookupD_foldl_runVaultTask (src : LogSource) (start : Nat)
    (endBlock : Option Nat) (vaults : List TVault) (m : SyncMap) (a b : Nat) :
    lookupD (vaults.foldl (runVaultTask src start endBlock) m) (a, b)
    = lookupD m (a, b)
      ++ (vaults.filter (fun v => v.Address = a)).flatMap
          (vaultContribAt src start endBlock (a, b)) := by
  induction vaults generalizing m with
  | nil => simp
  | cons v rest ih =>
    rw [List.foldl_cons, ih]
    show lookupD (runVaultTask src start endBlock m v) (a, b) ++ _ = _
    unfold runVaultTask
    rw [lookupD_foldl_insertEvent]
    by_cases hva : v.Address = a
    · rw [List.filter_cons_of_pos (by simpa using hva), List.flatMap_cons,
        List.append_assoc]
      rfl
    · rw [taskRecordsAt_addr_ne src v.Address _ a b hva, List.append_nil,
        List.filter_cons_of_neg (by simpa using hva)]

theorem goodKeys_foldl_runVaultTask (src : LogSource) (start : Nat)
    (endBlock : Option Nat) (vaults : List TVault) (m : SyncMap)
    (h : goodKeys m) :
    goodKeys (vaults.foldl (runVaultTask src start endBlock) m) := by
  induction vaults generalizing m with
  | nil => exact h
  | cons v rest ih => exact ih _ (goodKeys_foldl_insertEvent _ _ h)

/-- Closed form of the aggregation engine: the records under
`(a, b)` are exactly the concatenated contributions at that key of the
vaults whose address is `a`, in task order. -/
theorem HandleUpdateManagementFee_lookup (src : LogSource) (vaults : List TVault)
    (start : Nat) (endBlock : Option Nat) (a b : Nat) :
    HandleUpdateManagementFee src vaults start endBlock a b
    = (vaults.filter (fun v => v.Address = a)).flatMap
        (vaultContribAt src start endBlock (a, b)) := by
  unfold HandleUpdateManagementFee
  rw [reshapeFeeMap_eq_lookupD _
      (goodKeys_foldl_runVaultTask src start endBlock vaults [] (by simp [goodKeys])),
    lookupD_foldl_runVaultTask]
  rfl

theorem filter_addr_length_le_one (l : List TVault) (a : Nat)
    (h : (l.map TVault.Address).Nodup) :
    (l.filter (fun v => v.Address = a)).length ≤ 1 := by
  induction l with
  | nil => simp
  | cons v rest ih =>
    simp only [List.map_cons, List.nodup_cons] at h
    by_cases hv : v.Address = a
    · rw [List.filter_cons_of_pos (by simpa using hv)]
      have hnil : rest.filter (fun v => v.Address = a) = [] := by
        rw [List.filter_eq_nil_iff]
        intro x hx
        simp only [decide_eq_true_eq]
        intro hxa
        exact h.1 (hv ▸ hxa ▸ List.mem_map_of_mem TVault.Address hx)
      rw [hnil]
      simp
    · rw [List.filter_cons_of_neg (by simpa using hv)]
      exact ih h.2

theorem mem_vaultContribAt_blockNumber (src : LogSource) (start : Nat)
    (endBlock : Option Nat) (a b : Nat) (v : TVault) (r : TEventBlock)
    (h : r ∈ vaultContribAt src start endBlock (a, b) v) : r.BlockNumber = b := by
  unfold vaultContribAt taskRecordsAt at h
  rcases List.mem_filterMap.mp h with ⟨op, hop, hsome⟩
  by_cases hk : op.1 = (a, b)
  · rw [if_pos hk] at hsome
    injection hsome with hs
    rw [← hs, (filterUpdateManagementFee_key_shape _ _ _ op hop).2, hk]
  · rw [if_neg hk] at hsome
    cases hsome

/-- C4: for any permutation of the per-vault task order (the input being
a set of vaults: addresses pairwise distinct), the aggregation engine
produces an Event History with identical content under every
(vaultAddress, blockNumber) key. -/
theorem C4_eventHistory_order_independent (src : LogSource)
    (vaults₁ vaults₂ : List TVault) (start : Nat) (endBlock : Option Nat)
    (hperm : vaults₁.Perm vaults₂)
    (hnodup : (vaults₁.map TVault.Address).Nodup) :
    ∀ a b, HandleUpdateManagementFee src vaults₁ start endBlock a b
      = HandleUpdateManagementFee src vaults₂ start endBlock a b := by
  intro a b
  rw [HandleUpdateManagementFee_lookup, HandleUpdateManagementFee_lookup]
  have hp := hperm.filter (fun v => decide (v.Address = a))
  have hlen := filter_addr_length_le_one vaults₁ a hnodup
  have hfe : vaults₁.filter (fun v => v.Address = a)
      = vaults₂.filter (fun v => v.Address = a) := by
    rcases h1 : vaults₁.filter (fun v => v.Address = a) with _ | ⟨v, rest⟩
    · rw [h1] at hp
      rw [h1]
      exact (List.perm_nil.mp hp.symm).symm
    · rw [h1] at hp hlen
      rw [h1]
      rcases rest with _ | ⟨w, rest2⟩
      · exact (List.perm_singleton.mp hp.symm).symm
      · simp at hlen
  rw [hfe]

/-- C8: every record stored under key (vaultAddress, blockNumber) carries
that block number in its BlockNumber field, both in the flat concurrent
map and in the reshaped two-level Event History. -/
theorem C8_blockNumber_matches_key (src : LogSource) (vaults : List TVault)
    (start : Nat) (endBlock : Option Nat) (a b : Nat) :
    (∀ r ∈ lookupD (vaults.foldl (runVaultTask src start endBlock) []) (a, b),
      r.BlockNumber = b)
    ∧ (∀ r ∈ HandleUpdateManagementFee src vaults start endBlock a b,
      r.BlockNumber = b) := by
  have hmain : ∀ r ∈ (vaults.filter (fun v => v.Address = a)).flatMap
      (vaultContribAt src start endBlock (a, b)), r.BlockNumber = b := by
    intro r hr
    rcases List.mem_flatMap.mp hr with ⟨v, _, hv⟩
    exact mem_vaultContribAt_blockNumber src start endBlock a b v r hv
  constructor
  · intro r hr
    rw [lookupD_foldl_runVaultTask] at hr
    exact hmain r hr
  · intro r hr
    rw [HandleUpdateManagementFee_lookup] at hr
    exact hmain r hr

/-- C9: a vault whose filtered log query fails contributes zero records,
the call still returns an Event History, and the records of every other
vault are unchanged (the result at other addresses is the same as with
any log source that agrees outside the failing vault). -/
theorem C9_failed_query_isolated (src srcOther : LogSource) (vaults : List TVault)
    (start : Nat) (endBlock : Option Nat) (a : Nat)
    (hfail : ∀ opts, src.fetch a opts = none)
    (hagree : ∀ x opts, x ≠ a → srcOther.fetch x opts = src.fetch x opts) :
    (∀ b, HandleUpdateManagementFee src vaults start endBlock a b = [])
    ∧ (∀ a' b, a' ≠ a →
        HandleUpdateManagementFee src vaults start endBlock a' b
        = HandleUpdateManagementFee srcOther vaults start endBlock a' b) := by
  constructor
  · intro b
    rw [HandleUpdateManagementFee_lookup, List.flatMap_eq_nil_iff]
    intro v hv
    have hva : v.Address = a := by
      have := (List.mem_filter.mp hv).2
      simpa using this
    unfold vaultContribAt filterUpdateManagementFee
    rw [hva, hfail (vaultOpts start endBlock v)]
    rfl
  · intro a' b hne
    rw [HandleUpdateManagementFee_lookup, HandleUpdateManagementFee_lookup]
    have hmap : (vaults.filter (fun v => v.Address = a')).map
          (vaultContribAt src start endBlock (a', b))
        = (vaults.filter (fun v => v.Address = a')).map
          (vaultContribAt srcOther start endBlock (a', b)) := by
      apply List.map_congr_left
      intro v hv
      have hva : v.Address = a' := by
        have := (List.mem_filter.mp hv).2
        simpa using this
      unfold vaultContribAt filterUpdateManagementFee
      rw [hva, hagree a' (vaultOpts start endBlock v) hne]
    simp only [List.flatMap]
    rw [hmap]

/-! Concrete inputs for the event-engine witnesses. -/

/-- Witness vault 1. -/
def wVault1 : TVault :=
  { ChainID := 1, Address := 1, Kind := VaultKind.multiple,
    LastTotalAssets := some 5, Activation := 0,
    Metadata := { ShouldUseV2APR := false } }

/-- Witness vault 2. -/
def wVault2 : TVault :=
  { ChainID := 1, Address := 2, Kind := VaultKind.multiple,
    LastTotalAssets := some 5, Activation := 3,
    Metadata := { ShouldUseV2APR := false } }

/-- Witness log source: vault 1 has two good entries at blocks 7 and 12
plus one erroneous entry; vault 2 has one entry at block 21. -/
def wSrc : LogSource :=
  { fetch := fun addr _ =>
      if addr = 1 then
        some [some { BlockNumber := 7, TxHash := 11, TxIndex := 0, LogIndex := 0, ManagementFee := 42 },
              none,
              some { BlockNumber := 12, TxHash := 13, TxIndex := 1, LogIndex := 1, ManagementFee := 43 }]
      else some [some { BlockNumber := 21, TxHash := 17, TxIndex := 0, LogIndex := 0, ManagementFee := 99 }] }

/-- Witness log source whose query for vault 1 fails (and agrees with
`wSrc` elsewhere). -/
def wSrcFail : LogSource :=
  { fetch := fun addr _ =>
      if addr = 1 then none
      else some [some { BlockNumber := 21, TxHash := 17, TxIndex := 0, LogIndex := 0, ManagementFee := 99 }] }

/-- Witness for C4 at a concrete pair of task orders. -/
theorem C4_eventHistory_order_independent_witness :
    [wVault1, wVault2].Perm [wVault2, wVault1]
    ∧ ([wVault1, wVault2].map TVault.Address).Nodup
    ∧ HandleUpdateManagementFee wSrc [wVault1, wVault2] 0 none 1 7
      = HandleUpdateManagementFee wSrc [wVault2, wVault1] 0 none 1 7 :=
  ⟨List.Perm.swap wVault2 wVault1 [], by decide,
    C4_eventHistory_order_independent wSrc [wVault1, wVault2] [wVault2, wVault1]
      0 none (List.Perm.swap wVault2 wVault1 []) (by decide) 1 7⟩

/-- Witness for C8 at a concrete record. -/
theorem C8_blockNumber_matches_key_witness :
    mkEventBlock { BlockNumber := 7, TxHash := 11, TxIndex := 0, LogIndex := 0, ManagementFee := 42 }
      ∈ HandleUpdateManagementFee wSrc [wVault1, wVault2] 0 none 1 7
    ∧ (mkEventBlock { BlockNumber := 7, TxHash := 11, TxIndex := 0, LogIndex := 0, ManagementFee := 42 }).BlockNumber = 7 :=
  ⟨by decide,
    (C8_blockNumber_matches_key wSrc [wVault1, wVault2] 0 none 1 7).2
      (mkEventBlock { BlockNumber := 7, TxHash := 11, TxIndex := 0, LogIndex := 0, ManagementFee := 42 })
      (by decide)⟩

/-- Witness for C9 at a concrete failing source. -/
theorem C9_failed_query_isolated_witness :
    (∀ opts, wSrcFail.fetch 1 opts = none)
    ∧ HandleUpdateManagementFee wSrcFail [wVault1, wVault2] 0 none 1 7 = []
    ∧ HandleUpdateManagementFee wSrcFail [wVault1, wVault2] 0 none 2 21
      = HandleUpdateManagementFee wSrc [wVault1, wVault2] 0 none 2 21 := by
  have h := C9_failed_query_isolated wSrcFail wSrc [wVault1, wVault2] 0 none 1
    (fun _ => rfl)
    (by
      intro x opts hx
      simp only [wSrc, wSrcFail]
      rw [if_neg hx, if_neg hx])
  exact ⟨fun _ => rfl, h.1 7, h.2 2 21 (by decide)⟩

/-!  Forward-APY claims. -/

/-- Spec-side formula for one strategy's contribution to the normal-case
debt-ratio-weighted APR: strategies with null or zero debt ratio, or a
failing per-strategy oracle query, contribute 0; otherwise
`normalizedAPR * (debtRatio/10000) * (1 - performanceFee/10000)`.
(Stated from the spec's words, to be compared with the source
definition `multiStrategyDebtRatioAPR`.) -/
def specStrategyContribution (oracle : Oracle) (strategy : TStrategy) : ℚ :=
  match strategy.LastDebtRatio with
  | none => 0
  | some dr =>
    if dr = 0 then 0
    else
      match oracle.getStrategyApr strategy.Address 0 with
      | none => 0
      | some raw =>
        ToNormalizedAmount raw 18 * ((dr : ℚ) / 10000)
          * (1 - (strategy.LastPerformanceFee : ℚ) / 10000)

theorem multiStrategyStep_eq_add (oracle : Oracle) (q : ℚ) (s : TStrategy) :
    multiStrategyStep oracle q s = q + specStrategyContribution oracle s := by
  unfold multiStrategyStep specStrategyContribution
  cases hdr : s.LastDebtRatio with
  | none => simp
  | some dr =>
    by_cases hz : dr = 0
    · simp [hz]
    · simp only [if_neg hz]
      cases hq : oracle.getStrategyApr s.Address 0 with
      | none => simp
      | some raw =>
        unfold ToNormalizedAmount
        norm_num

theorem multiStrategyDebtRatioAPR_eq_sum (oracle : Oracle)
    (strategies : List TStrategy) :
    multiStrategyDebtRatioAPR oracle strategies
    = (9 / 10) * (strategies.map (specStrategyContribution oracle)).sum := by
  unfold multiStrategyDebtRatioAPR
  rw [mul_comm]
  congr 1
  suffices H : ∀ q : ℚ, strategies.foldl (multiStrategyStep oracle) q
      = q + (strategies.map (specStrategyContribution oracle)).sum by
    simpa using H 0
  induction strategies with
  | nil => intro q; simp
  | cons s rest ih =>
    intro q
    rw [List.foldl_cons, List.map_cons, List.sum_cons, ih,
      multiStrategyStep_eq_add]
    ring

theorem computeDebtRatioAPR_empty_branch (oracle : Oracle) (vault : TVault)
    (strategies : List TStrategy) (hk : vault.Kind = VaultKind.multiple)
    (ht : vault.LastTotalAssets = none ∨ vault.LastTotalAssets = some 0) :
    computeDebtRatioAPR oracle vault strategies
    = emptyVaultDebtRatioAPR oracle strategies := by
  unfold computeDebtRatioAPR
  rw [if_pos hk]
  rcases ht with h | h <;> rw [h]
  exact if_pos rfl

theorem computeDebtRatioAPR_normal_branch (oracle : Oracle) (vault : TVault)
    (strategies : List TStrategy) (t : Int) (hk : vault.Kind = VaultKind.multiple)
    (ht : vault.LastTotalAssets = some t) (htz : t ≠ 0) :
    computeDebtRatioAPR oracle vault strategies
    = multiStrategyDebtRatioAPR oracle strategies := by
  unfold computeDebtRatioAPR
  rw [if_pos hk, ht]
  exact if_neg htz

/-! Concrete inputs for the calculator witnesses: the spec's concrete
scenario (debt ratios 6000 and 4000, performance fees 1000 and 2000,
per-strategy oracle APRs 0.10 and 0.08). -/

/-- Witness strategy with debt ratio 6000 bps and performance fee 1000 bps. -/
def wStrategy1 : TStrategy :=
  { Address := 101, LastDebtRatio := some 6000, LastPerformanceFee := 1000 }

/-- Witness strategy with debt ratio 4000 bps and performance fee 2000 bps. -/
def wStrategy2 : TStrategy :=
  { Address := 102, LastDebtRatio := some 4000, LastPerformanceFee := 2000 }

/-- Witness oracle: per-strategy APRs 0.10 and 0.08 (18-decimal fixed
point) for the two witness strategies. -/
def wOracleApr : Oracle :=
  { getStrategyApr := fun addr _ =>
      if addr = 101 then some (10 ^ 17)
      else if addr = 102 then some (8 * 10 ^ 16)
      else none
    getCurrentApr := fun _ => none }

/-- Witness multi-strategy vault with total assets 1000. -/
def wVaultMulti : TVault :=
  { ChainID := 1, Address := 10, Kind := VaultKind.multiple,
    LastTotalAssets := some 1000, Activation := 0,
    Metadata := { ShouldUseV2APR := false } }

/-- C1: for a Multiple-kind vault with non-null, non-zero total assets,
the debt-ratio APR is 0.9 times the sum over qualifying strategies of
normalizedAPR * (debtRatio/10000) * (1 - performanceFee/10000); at the
spec's concrete two-strategy scenario the value is 0.07164. -/
theorem C1_debtRatio_weighted_fallback (oracle : Oracle) (vault : TVault)
    (strategies : List TStrategy) (t : Int)
    (hk : vault.Kind = VaultKind.multiple)
    (ht : vault.LastTotalAssets = some t) (htz : t ≠ 0) :
    computeDebtRatioAPR oracle vault strategies
      = (9 / 10) * (strategies.map (specStrategyContribution oracle)).sum
    ∧ computeDebtRatioAPR wOracleApr wVaultMulti [wStrategy1, wStrategy2]
      = 7164 / 100000 := by
  constructor
  · rw [computeDebtRatioAPR_normal_branch oracle vault strategies t hk ht htz,
      multiStrategyDebtRatioAPR_eq_sum]
  · rw [computeDebtRatioAPR_normal_branch wOracleApr wVaultMulti
      [wStrategy1, wStrategy2] 1000 rfl rfl (by norm_num)]
    simp [multiStrategyDebtRatioAPR, multiStrategyStep, wOracleApr, wStrategy1,
      wStrategy2, ToNormalizedAmount]
    norm_num

/-- Witness for C1 at the spec's concrete scenario. -/
theorem C1_debtRatio_weighted_fallback_witness :
    wVaultMulti.Kind = VaultKind.multiple
    ∧ wVaultMulti.LastTotalAssets = some 1000
    ∧ (1000 : Int) ≠ 0
    ∧ computeDebtRatioAPR wOracleApr wVaultMulti [wStrategy1, wStrategy2]
      = (9 / 10) * ([wStrategy1, wStrategy2].map (specStrategyContribution wOracleApr)).sum :=
  ⟨rfl, rfl, by norm_num,
    (C1_debtRatio_weighted_fallback wOracleApr wVaultMulti [wStrategy1, wStrategy2]
      1000 rfl rfl (by norm_num)).1⟩

theorem emptyVault_first_success (oracle : Oracle) (strategies : List TStrategy) :
    ((∀ s ∈ strategies, oracle.getStrategyApr s.Address 0 = none)
      ∧ emptyVaultDebtRatioAPR oracle strategies = 0)
    ∨ (∃ s raw, s ∈ strategies
        ∧ oracle.getStrategyApr s.Address 0 = some raw
        ∧ emptyVaultDebtRatioAPR oracle strategies
          = ToNormalizedAmount raw 18 * (1 - (s.LastPerformanceFee : ℚ) / 10000) * (9 / 10)
        ∧ ∀ extra, emptyVaultDebtRatioAPR oracle (strategies ++ extra)
            = emptyVaultDebtRatioAPR oracle strategies) := by
  induction strategies with
  | nil => exact Or.inl ⟨by simp, rfl⟩
  | cons s rest ih =>
    cases hq : oracle.getStrategyApr s.Address 0 with
    | some raw =>
      refine Or.inr ⟨s, raw, List.mem_cons_self s rest, hq, ?_, ?_⟩
      · show emptyVaultDebtRatioAPR oracle (s :: rest) = _
        simp [emptyVaultDebtRatioAPR, hq]
      · intro extra
        show emptyVaultDebtRatioAPR oracle (s :: (rest ++ extra))
          = emptyVaultDebtRatioAPR oracle (s :: rest)
        simp [emptyVaultDebtRatioAPR, hq]
    | none =>
      rcases ih with ⟨hall, hz⟩ | ⟨s', raw, hs', hq', hval, hext⟩
      · refine Or.inl ⟨?_, ?_⟩
        · intro x hx
          rcases List.mem_cons.mp hx with rfl | hx2
          · exact hq
          · exact hall x hx2
        · simp [emptyVaultDebtRatioAPR, hq, hz]
      · refine Or.inr ⟨s', raw, List.mem_cons_of_mem s hs', hq', ?_, ?_⟩
        · simp [emptyVaultDebtRatioAPR, hq, hval]
        · intro extra
          show emptyVaultDebtRatioAPR oracle (s :: (rest ++ extra))
            = emptyVaultDebtRatioAPR oracle (s :: rest)
          simp only [emptyVaultDebtRatioAPR, hq]
          exact hext extra

/-- Witness strategy whose oracle query fails. -/
def wStrategyFail : TStrategy :=
  { Address := 201, LastDebtRatio := some 5000, LastPerformanceFee := 0 }

/-- Witness oracle on which every call fails. -/
def wOracleAllFail : Oracle :=
  { getStrategyApr := fun _ _ => none, getCurrentApr := fun _ => none }

/-- Witness multi-strategy vault with zero total assets. -/
def wVaultEmptyAssets : TVault :=
  { ChainID := 1, Address := 11, Kind := VaultKind.multiple,
    LastTotalAssets := some 0, Activation := 0,
    Metadata := { ShouldUseV2APR := false } }

/-- C2 counterexample: a Multiple-kind vault with zero total assets and
one strategy, whose per-strategy oracle query fails: the loop skips the
failing strategy instead of stopping, so no strategy's APR is used and
the claimed form (exactly one strategy's fee-adjusted, haircut-adjusted
oracle APR) holds for no strategy. -/
theorem C2_counterexample :
    wVaultEmptyAssets.Kind = VaultKind.multiple
    ∧ wVaultEmptyAssets.LastTotalAssets = some 0
    ∧ ([wStrategyFail] : List TStrategy) ≠ []
    ∧ ¬ ∃ s raw, s ∈ ([wStrategyFail] : List TStrategy)
        ∧ wOracleAllFail.getStrategyApr s.Address 0 = some raw
        ∧ computeDebtRatioAPR wOracleAllFail wVaultEmptyAssets [wStrategyFail]
          = ToNormalizedAmount raw 18 * (1 - (s.LastPerformanceFee : ℚ) / 10000) * (9 / 10) := by
  refine ⟨rfl, rfl, by simp, ?_⟩
  rintro ⟨s, raw, hs, hq, hv⟩
  exact Option.noConfusion hq

/-- C2 (amended): in the empty-vault branch at most one strategy
contributes: if some strategy's oracle query succeeds, the debt-ratio APR
is the first such strategy's normalized APR times (1 − fee/10000) times
0.9 and appending further strategies changes nothing; if every query
fails, the debt-ratio APR is zero. -/
theorem C2_empty_vault_single_strategy (oracle : Oracle) (vault : TVault)
    (strategies : List TStrategy)
    (hk : vault.Kind = VaultKind.multiple)
    (ht : vault.LastTotalAssets = none ∨ vault.LastTotalAssets = some 0)
    (hne : strategies ≠ []) :
    ((∀ s ∈ strategies, oracle.getStrategyApr s.Address 0 = none)
      ∧ computeDebtRatioAPR oracle vault strategies = 0)
    ∨ (∃ s raw, s ∈ strategies
        ∧ oracle.getStrategyApr s.Address 0 = some raw
        ∧ computeDebtRatioAPR oracle vault strategies
          = ToNormalizedAmount raw 18 * (1 - (s.LastPerformanceFee : ℚ) / 10000) * (9 / 10)
        ∧ ∀ extra, computeDebtRatioAPR oracle vault (strategies ++ extra)
            = computeDebtRatioAPR oracle vault strategies) := by
  have hred : ∀ l, computeDebtRatioAPR oracle vault l = emptyVaultDebtRatioAPR oracle l :=
    fun l => computeDebtRatioAPR_empty_branch oracle vault l hk ht
  simp only [hred]
  exact emptyVault_first_success oracle strategies

/-- Witness for the amended C2: first strategy's query fails, the second
succeeds and alone determines the result. -/
theorem C2_empty_vault_single_strategy_witness :
    wVaultEmptyAssets.Kind = VaultKind.multiple
    ∧ (wVaultEmptyAssets.LastTotalAssets = none ∨ wVaultEmptyAssets.LastTotalAssets = some 0)
    ∧ ([wStrategyFail, wStrategy1] : List TStrategy) ≠ []
    ∧ (((∀ s ∈ ([wStrategyFail, wStrategy1] : List TStrategy),
          wOracleApr.getStrategyApr s.Address 0 = none)
        ∧ computeDebtRatioAPR wOracleApr wVaultEmptyAssets [wStrategyFail, wStrategy1] = 0)
      ∨ (∃ s raw, s ∈ ([wStrategyFail, wStrategy1] : List TStrategy)
          ∧ wOracleApr.getStrategyApr s.Address 0 = some raw
          ∧ computeDebtRatioAPR wOracleApr wVaultEmptyAssets [wStrategyFail, wStrategy1]
            = ToNormalizedAmount raw 18 * (1 - (s.LastPerformanceFee : ℚ) / 10000) * (9 / 10)
          ∧ ∀ extra, computeDebtRatioAPR wOracleApr wVaultEmptyAssets ([wStrategyFail, wStrategy1] ++ extra)
              = computeDebtRatioAPR wOracleApr wVaultEmptyAssets [wStrategyFail, wStrategy1])) :=
  ⟨rfl, Or.inr rfl, by simp,
    C2_empty_vault_single_strategy wOracleApr wVaultEmptyAssets
      [wStrategyFail, wStrategy1] rfl (Or.inr rfl) (by simp)⟩

theorem emptyVault_ignores_debtRatio (oracle : Oracle) (strategies : List TStrategy)
    (f : TStrategy → Option Int) :
    emptyVaultDebtRatioAPR oracle
        (strategies.map (fun s => { s with LastDebtRatio := f s }))
    = emptyVaultDebtRatioAPR oracle strategies := by
  induction strategies with
  | nil => rfl
  | cons s rest ih =>
    show emptyVaultDebtRatioAPR oracle
        ({ s with LastDebtRatio := f s } :: rest.map (fun s => { s with LastDebtRatio := f s }))
      = emptyVaultDebtRatioAPR oracle (s :: rest)
    cases hq : oracle.getStrategyApr s.Address 0 with
    | none => simp [emptyVaultDebtRatioAPR, hq, ih]
    | some raw => simp [emptyVaultDebtRatioAPR, hq]

/-- C10: the empty-vault branch never reads any strategy's debt ratio —
its result is invariant under arbitrary replacement of every debt ratio —
and a single strategy with a successful query contributes its
fee-adjusted, 0.9-haircut APR whatever its debt ratio (null or zero
included). -/
theorem C10_empty_branch_ignores_debtRatio (oracle : Oracle) (vault : TVault)
    (strategies : List TStrategy) (f : TStrategy → Option Int)
    (hk : vault.Kind = VaultKind.multiple)
    (ht : vault.LastTotalAssets = none ∨ vault.LastTotalAssets = some 0) :
    computeDebtRatioAPR oracle vault
        (strategies.map (fun s => { s with LastDebtRatio := f s }))
      = computeDebtRatioAPR oracle vault strategies
    ∧ (∀ s raw, strategies = [s] → oracle.getStrategyApr s.Address 0 = some raw →
        computeDebtRatioAPR oracle vault strategies
          = ToNormalizedAmount raw 18 * (1 - (s.LastPerformanceFee : ℚ) / 10000) * (9 / 10)) := by
  have hred : ∀ l, computeDebtRatioAPR oracle vault l = emptyVaultDebtRatioAPR oracle l :=
    fun l => computeDebtRatioAPR_empty_branch oracle vault l hk ht
  constructor
  · rw [hred, hred]
    exact emptyVault_ignores_debtRatio oracle strategies f
  · rintro s raw rfl hq
    rw [hred]
    simp [emptyVaultDebtRatioAPR, hq]

/-- Witness strategy with zero debt ratio (oracle APR 0.10 via address 101). -/
def wStrategyZeroDR : TStrategy :=
  { Address := 101, LastDebtRatio := some 0, LastPerformanceFee := 1000 }

/-- Witness multi-strategy vault with null (unknown) total assets. -/
def wVaultNilAssets : TVault :=
  { ChainID := 1, Address := 12, Kind := VaultKind.multiple,
    LastTotalAssets := none, Activation := 0,
    Metadata := { ShouldUseV2APR := false } }

/-- Witness for C10: replacing the zero debt ratio changes nothing, and
the zero-debt-ratio strategy still contributes in the empty branch. -/
theorem C10_empty_branch_ignores_debtRatio_witness :
    wVaultNilAssets.Kind = VaultKind.multiple
    ∧ (wVaultNilAssets.LastTotalAssets = none ∨ wVaultNilAssets.LastTotalAssets = some 0)
    ∧ computeDebtRatioAPR wOracleApr wVaultNilAssets
        ([wStrategyZeroDR].map (fun s => { s with LastDebtRatio := some 9999 }))
      = computeDebtRatioAPR wOracleApr wVaultNilAssets [wStrategyZeroDR]
    ∧ computeDebtRatioAPR wOracleApr wVaultNilAssets [wStrategyZeroDR]
      = ToNormalizedAmount (10 ^ 17) 18 * (1 - ((1000 : Int) : ℚ) / 10000) * (9 / 10) := by
  have h := C10_empty_branch_ignores_debtRatio wOracleApr wVaultNilAssets
    [wStrategyZeroDR] (fun _ => some 9999) rfl (Or.inl rfl)
  exact ⟨rfl, Or.inl rfl, h.1, h.2 wStrategyZeroDR (10 ^ 17) rfl rfl⟩

/-- C3: the two-step oracle fallback. If `GetStrategyApr` succeeds with a
nonzero normalized value, that value is the oracle APR and
`GetCurrentApr` is never consulted (the result is independent of it); if
`GetStrategyApr` fails or normalizes to exactly zero, the result is the
normalized `GetCurrentApr` value, or zero when that fails too (no error
in any case: the function is total). -/
theorem C3_oracle_fallback_ordering (oracle : Oracle) (vaultAddress : Nat) :
    (∀ raw, oracle.getStrategyApr vaultAddress 0 = some raw →
      ToNormalizedAmount raw 18 ≠ 0 →
      computeOracleAPR oracle vaultAddress = ToNormalizedAmount raw 18
      ∧ ∀ g, computeOracleAPR
          { getStrategyApr := oracle.getStrategyApr, getCurrentApr := g } vaultAddress
          = ToNormalizedAmount raw 18)
    ∧ ((oracle.getStrategyApr vaultAddress 0 = none
        ∨ ∃ raw, oracle.getStrategyApr vaultAddress 0 = some raw
            ∧ ToNormalizedAmount raw 18 = 0) →
      computeOracleAPR oracle vaultAddress
        = match oracle.getCurrentApr vaultAddress with
          | some fallback => ToNormalizedAmount fallback 18
          | none => 0) := by
  constructor
  · intro raw hq hnz
    constructor
    · unfold computeOracleAPR
      simp only [hq, Option.isNone_some, Bool.false_eq_true, false_or]
      rw [if_neg hnz]
    · intro g
      unfold computeOracleAPR
      simp only [hq, Option.isNone_some, Bool.false_eq_true, false_or]
      rw [if_neg hnz]
  · rintro (hn | ⟨raw, hq, hz⟩)
    · unfold computeOracleAPR
      cases hcur : oracle.getCurrentApr vaultAddress <;>
        simp [hn, hcur]
    · unfold computeOracleAPR
      cases hcur : oracle.getCurrentApr vaultAddress <;>
        simp [hq, hz, hcur]

/-- Witness oracle for C3: per-strategy APR 0.05, whole-vault APR 1.0. -/
def wOracleBoth : Oracle :=
  { getStrategyApr := fun _ _ => some (5 * 10 ^ 16)
    getCurrentApr := fun _ => some (10 ^ 18) }

/-- Witness for C3: the nonzero per-strategy value wins and the
whole-vault value is not consulted. -/
theorem C3_oracle_fallback_ordering_witness :
    wOracleBoth.getStrategyApr 7 0 = some (5 * 10 ^ 16)
    ∧ ToNormalizedAmount (5 * 10 ^ 16) 18 ≠ 0
    ∧ computeOracleAPR wOracleBoth 7 = ToNormalizedAmount (5 * 10 ^ 16) 18 :=
  ⟨rfl, by norm_num [ToNormalizedAmount],
    ((C3_oracle_fallback_ordering wOracleBoth 7).1 (5 * 10 ^ 16) rfl
      (by norm_num [ToNormalizedAmount])).1⟩

/-- C5: configuration failures (unknown chain, zero oracle contract
address, failing oracle client construction) each yield the zero-valued
result immediately. -/
theorem C5_config_failure_empty_result (env : Env) (vault : TVault)
    (strategies : List TStrategy) :
    (env.getChain vault.ChainID = none →
      computeVaultV3ForwardAPY env vault strategies = emptyTForwardAPY)
    ∧ (∀ chain, env.getChain vault.ChainID = some chain →
        chain.APROracleContract = 0 →
        computeVaultV3ForwardAPY env vault strategies = emptyTForwardAPY)
    ∧ (∀ chain, env.getChain vault.ChainID = some chain →
        chain.APROracleContract ≠ 0 →
        env.newYVaultsV3APROracleCaller chain.APROracleContract vault.ChainID = none →
        computeVaultV3ForwardAPY env vault strategies = emptyTForwardAPY) := by
  refine ⟨fun h => ?_, fun chain hc h0 => ?_, fun chain hc hnz hno => ?_⟩
  · unfold computeVaultV3ForwardAPY
    rw [h]
  · unfold computeVaultV3ForwardAPY
    simp only [hc]
    rw [if_pos h0]
  · unfold computeVaultV3ForwardAPY
    simp only [hc]
    rw [if_neg hnz]
    simp only [hno]

/-- Witness chain configuration with oracle contract at address 5. -/
def wChainCfg : TChain := { APROracleContract := 5 }

/-- Witness environment resolving chain 1 to `wChainCfg` and the oracle
client to `wOracleApr`. -/
def wEnv : Env :=
  { getChain := fun c => if c = 1 then some wChainCfg else none
    newYVaultsV3APROracleCaller := fun oc cid =>
      if oc = 5 then (if cid = 1 then some wOracleApr else none) else none }

/-- Witness environment with no known chain. -/
def wEnvUnknownChain : Env :=
  { getChain := fun _ => none, newYVaultsV3APROracleCaller := fun _ _ => none }

/-- Witness environment whose chains carry the zero oracle address. -/
def wEnvZeroOracle : Env :=
  { getChain := fun _ => some { APROracleContract := 0 }
    newYVaultsV3APROracleCaller := fun _ _ => some wOracleApr }

/-- Witness environment whose oracle client construction fails. -/
def wEnvNoClient : Env :=
  { getChain := fun _ => some wChainCfg
    newYVaultsV3APROracleCaller := fun _ _ => none }

/-- Witness for C5: all three failure modes at concrete environments. -/
theorem C5_config_failure_empty_result_witness :
    wEnvUnknownChain.getChain wVaultMulti.ChainID = none
    ∧ computeVaultV3ForwardAPY wEnvUnknownChain wVaultMulti [wStrategy1] = emptyTForwardAPY
    ∧ computeVaultV3ForwardAPY wEnvZeroOracle wVaultMulti [wStrategy1] = emptyTForwardAPY
    ∧ computeVaultV3ForwardAPY wEnvNoClient wVaultMulti [wStrategy1] = emptyTForwardAPY :=
  ⟨rfl,
    (C5_config_failure_empty_result wEnvUnknownChain wVaultMulti [wStrategy1]).1 rfl,
    (C5_config_failure_empty_result wEnvZeroOracle wVaultMulti [wStrategy1]).2.1
      { APROracleContract := 0 } rfl rfl,
    (C5_config_failure_empty_result wEnvNoClient wVaultMulti [wStrategy1]).2.2
      wChainCfg rfl (by norm_num [wChainCfg]) rfl⟩

theorem forwardAPY_fields (env : Env) (vault : TVault)
    (strategies : List TStrategy) (chain : TChain) (oracle : Oracle)
    (hc : env.getChain vault.ChainID = some chain)
    (hnz : chain.APROracleContract ≠ 0)
    (ho : env.newYVaultsV3APROracleCaller chain.APROracleContract vault.ChainID
      = some oracle) :
    computeVaultV3ForwardAPY env vault strategies
    = { type := "v3:onchainOracle"
        NetAPY := convertFloatAPRToAPY
          (if vault.Metadata.ShouldUseV2APR
            then computeDebtRatioAPR oracle vault strategies
            else computeOracleAPR oracle vault.Address) 52
        Composite :=
          { V3OracleCurrentAPR :=
              convertFloatAPRToAPY (computeOracleAPR oracle vault.Address) 52
            V3OracleStratRatioAPR :=
              convertFloatAPRToAPY (computeDebtRatioAPR oracle vault strategies) 52 } } := by
  unfold computeVaultV3ForwardAPY
  simp only [hc]
  rw [if_neg hnz]
  simp only [ho]

/-- C6: the net APY is the compounded debt-ratio APR when the vault's
ShouldUseV2APR flag is set and the compounded oracle APR otherwise, and
the composite breakdown always carries both compounded APRs. -/
theorem C6_primary_selection (env : Env) (vault : TVault)
    (strategies : List TStrategy) (chain : TChain) (oracle : Oracle)
    (hc : env.getChain vault.ChainID = some chain)
    (hnz : chain.APROracleContract ≠ 0)
    (ho : env.newYVaultsV3APROracleCaller chain.APROracleContract vault.ChainID
      = some oracle) :
    (computeVaultV3ForwardAPY env vault strategies).NetAPY
      = (if vault.Metadata.ShouldUseV2APR
          then convertFloatAPRToAPY (computeDebtRatioAPR oracle vault strategies) 52
          else convertFloatAPRToAPY (computeOracleAPR oracle vault.Address) 52)
    ∧ (computeVaultV3ForwardAPY env vault strategies).Composite.V3OracleCurrentAPR
      = convertFloatAPRToAPY (computeOracleAPR oracle vault.Address) 52
    ∧ (computeVaultV3ForwardAPY env vault strategies).Composite.V3OracleStratRatioAPR
      = convertFloatAPRToAPY (computeDebtRatioAPR oracle vault strategies) 52 := by
  rw [forwardAPY_fields env vault strategies chain oracle hc hnz ho]
  refine ⟨?_, rfl, rfl⟩
  by_cases hflag : vault.Metadata.ShouldUseV2APR <;> simp [hflag]

/-- Witness for C6 at a concrete environment (flag not set: the oracle
APR is primary). -/
theorem C6_primary_selection_witness :
    wEnv.getChain wVaultMulti.ChainID = some wChainCfg
    ∧ wChainCfg.APROracleContract ≠ 0
    ∧ wEnv.newYVaultsV3APROracleCaller wChainCfg.APROracleContract wVaultMulti.ChainID
      = some wOracleApr
    ∧ (computeVaultV3ForwardAPY wEnv wVaultMulti [wStrategy1, wStrategy2]).NetAPY
      = (if wVaultMulti.Metadata.ShouldUseV2APR
          then convertFloatAPRToAPY
            (computeDebtRatioAPR wOracleApr wVaultMulti [wStrategy1, wStrategy2]) 52
          else convertFloatAPRToAPY (computeOracleAPR wOracleApr wVaultMulti.Address) 52) :=
  ⟨rfl, by norm_num [wChainCfg], rfl,
    (C6_primary_selection wEnv wVaultMulti [wStrategy1, wStrategy2] wChainCfg
      wOracleApr rfl (by norm_num [wChainCfg]) rfl).1⟩

/-- C7: all three reported values are produced by the 52-period
compounding conversion, the conversion computes
`(1 + APR/52)^52 - 1`, and it is strictly increasing for APR above -52. -/
theorem C7_apr_to_apy_conversion (env : Env) (vault : TVault)
    (strategies : List TStrategy) (chain : TChain) (oracle : Oracle)
    (hc : env.getChain vault.ChainID = some chain)
    (hnz : chain.APROracleContract ≠ 0)
    (ho : env.newYVaultsV3APROracleCaller chain.APROracleContract vault.ChainID
      = some oracle) :
    ((computeVaultV3ForwardAPY env vault strategies).NetAPY
      = convertFloatAPRToAPY
          (if vault.Metadata.ShouldUseV2APR
            then computeDebtRatioAPR oracle vault strategies
            else computeOracleAPR oracle vault.Address) 52
     ∧ (computeVaultV3ForwardAPY env vault strategies).Composite.V3OracleCurrentAPR
      = convertFloatAPRToAPY (computeOracleAPR oracle vault.Address) 52
     ∧ (computeVaultV3ForwardAPY env vault strategies).Composite.V3OracleStratRatioAPR
      = convertFloatAPRToAPY (computeDebtRatioAPR oracle vault strategies) 52)
    ∧ (∀ apr : ℚ, convertFloatAPRToAPY apr 52 = (1 + apr / 52) ^ 52 - 1)
    ∧ (∀ a b : ℚ, -52 < a → a < b →
        convertFloatAPRToAPY a 52 < convertFloatAPRToAPY b 52) := by
  refine ⟨?_, fun apr => ?_, fun a b ha hab => ?_⟩
  · rw [forwardAPY_fields env vault strategies chain oracle hc hnz ho]
    exact ⟨rfl, rfl, rfl⟩
  · unfold convertFloatAPRToAPY
    norm_num
  · unfold convertFloatAPRToAPY
    have h52 : (0 : ℚ) < 52 := by norm_num
    have hcast : ((52 : Nat) : ℚ) = 52 := by norm_num
    rw [hcast]
    have hb : a / 52 < b / 52 := (div_lt_div_right h52).mpr hab
    have ha1 : -1 < a / 52 := by
      rw [lt_div_iff h52]
      linarith
    have hpos : (0 : ℚ) ≤ 1 + a / 52 := by linarith
    have hlt : 1 + a / 52 < 1 + b / 52 := by linarith
    have hpow := pow_lt_pow_left hlt hpos (show 52 ≠ 0 by norm_num)
    linarith

/-- Witness for C7: concrete field equation and monotonicity at 0 < 1. -/
theorem C7_apr_to_apy_conversion_witness :
    (computeVaultV3ForwardAPY wEnv wVaultMulti [wStrategy1, wStrategy2]).Composite.V3OracleStratRatioAPR
      = convertFloatAPRToAPY
          (computeDebtRatioAPR wOracleApr wVaultMulti [wStrategy1, wStrategy2]) 52
    ∧ (-52 : ℚ) < 0 ∧ (0 : ℚ) < 1
    ∧ convertFloatAPRToAPY 0 52 < convertFloatAPRToAPY 1 52 :=
  ⟨(C7_apr_to_apy_conversion wEnv wVaultMulti [wStrategy1, wStrategy2] wChainCfg
      wOracleApr rfl (by norm_num [wChainCfg]) rfl).1.2.2,
    by norm_num, by norm_num,
    (C7_apr_to_apy_conversion wEnv wVaultMulti [wStrategy1, wStrategy2] wChainCfg
      wOracleApr rfl (by norm_num [wChainCfg]) rfl).2.2 0 1 (by norm_num) (by norm_num)⟩

end YDaemon
